import Mathlib

/-!
A verification development for the PyPy/HippyVM bridge layer
(`hippy/module/pypy_bridge/py_wrappers.py`): the adapters that let PHP
values, functions and reference cells be used from Python code.

The embedding models:
* PHP-side values (`PHPVal`) and Python-side values (`PyVal`) as a mutual
  inductive family; PHP objects, classes and functions are opaque handles
  (natural-number ids), so pointer identity on the foreign side is handle
  equality.
* the store of PHP reference cells (`W_Reference` boxes) as a heap, so
  mutation through a shared cell is explicit state;
* the three adapter classes `W_PHPGenericAdapter`, `W_PHPFuncAdapter` and
  `W_PHPRefAdapter` and their `descr_*` entry points, translated from the
  source; external collaborators (the PHP object model, class
  instantiation, PHP equality) are parameters of a `PHPObjectModel`
  structure, and the foreign callee's behaviour is an arbitrary
  `call_args` function so that theorems quantify over every possible
  callee body.
-/

namespace PyPyBridge

/-- PHP array keys are integers or strings. -/
inductive PHPKey where
  | kint (n : Int)
  | kstr (s : String)
deriving DecidableEq

mutual
/-- A value owned by the PHP (foreign) runtime as seen by the bridge.
Objects, classes and functions are opaque handles; `vref` is a
`W_Reference` box, i.e. an index into the heap of reference cells;
`vpywrap` is a PHP-side generic wrapper around a Python object. -/
inductive PHPVal where
  | vint (n : Int)
  | vstr (s : String)
  | vbool (b : Bool)
  | vnull
  | varr (entries : List (PHPKey × PHPVal))
  | vobj (id : Nat)
  | vcls (id : Nat)
  | vfunc (fid : Nat)
  | vref (idx : Nat)
  | vpywrap (p : PyVal)

/-- A value of the Python (host) runtime.  `genericAdapter` is a
`W_PHPGenericAdapter` wrapping a PHP value, `funcAdapter` a
`W_PHPFuncAdapter` wrapping a PHP function handle, and `refAdapter` a
`W_PHPRefAdapter` holding a `W_Reference` (a heap index). -/
inductive PyVal where
  | pint (n : Int)
  | pstr (s : String)
  | pbool (b : Bool)
  | pnone
  | plist (xs : List PyVal)
  | pdict (entries : List (PHPKey × PyVal))
  | genericAdapter (w : PHPVal)
  | funcAdapter (fid : Nat)
  | refAdapter (idx : Nat)
end

/-- Pair each element of a PHP array built from a Python list with its
integer key, starting at a given index. -/
def enumIntKeys : Nat → List PHPVal → List (PHPKey × PHPVal)
  | _, [] => []
  | i, v :: rest => (PHPKey.kint (Int.ofNat i), v) :: enumIntKeys (i + 1) rest

mutual
/-- Conversion of a Python value to its PHP representation (`x.to_php`).
The adapter cases are from the source (`W_PHPGenericAdapter.to_php`
returns the wrapped `w_php_inst`; the func adapter unwraps to the wrapped
function).  The structural cases are Modelled from the spec: the Value
Converter maps scalars directly and builds a new independent container
for sequences/mappings; a host object with no structural image (the
ReferenceCell type) is wrapped on the foreign side, never copied. -/
def to_php : PyVal → PHPVal
  | .pint n => .vint n
  | .pstr s => .vstr s
  | .pbool b => .vbool b
  | .pnone => .vnull
  | .plist xs => .varr (enumIntKeys 0 (to_php_list xs))
  | .pdict es => .varr (to_php_entries es)
  | .genericAdapter w => w
  | .funcAdapter fid => .vfunc fid
  | .refAdapter idx => .vpywrap (.refAdapter idx)

/-- Elementwise `to_php` over a Python list. -/
def to_php_list : List PyVal → List PHPVal
  | [] => []
  | x :: xs => to_php x :: to_php_list xs

/-- Elementwise `to_php` over the entries of a Python mapping. -/
def to_php_entries : List (PHPKey × PyVal) → List (PHPKey × PHPVal)
  | [] => []
  | (k, v) :: es => (k, to_php v) :: to_php_entries es
end

mutual
/-- Conversion of a PHP value to its Python representation (`w.to_py`).
Modelled from the spec where the conversion code is outside the reviewed
source: scalars map structurally, arrays become a new independent
container, objects/classes wrap in a generic adapter (never copied),
functions wrap in a func adapter, references surface as the
distinguishable ReferenceCell type, and a PHP-side wrapper of a Python
object unwraps to the identical Python object. -/
def to_py : PHPVal → PyVal
  | .vint n => .pint n
  | .vstr s => .pstr s
  | .vbool b => .pbool b
  | .vnull => .pnone
  | .varr es => .pdict (to_py_entries es)
  | .vobj id => .genericAdapter (.vobj id)
  | .vcls id => .genericAdapter (.vcls id)
  | .vfunc fid => .funcAdapter fid
  | .vref idx => .refAdapter idx
  | .vpywrap p => p

/-- Elementwise `to_py` over the entries of a PHP array. -/
def to_py_entries : List (PHPKey × PHPVal) → List (PHPKey × PyVal)
  | [] => []
  | (k, v) :: es => (k, to_py v) :: to_py_entries es
end

/-- The store of `W_Reference` cells: cell `r` is the value at index `r`. -/
abbrev Heap := List PHPVal

/-- Read a reference cell (out-of-range reads default to null). -/
def Heap.get (H : Heap) (r : Nat) : PHPVal := H.getD r .vnull

/-- Overwrite a reference cell. -/
def Heap.write (H : Heap) (r : Nat) (v : PHPVal) : Heap := H.set r v

/-- `W_PHPRefAdapter.__init__` via `descr_new`: converts the initial Python
value to PHP and boxes it in a fresh `W_Reference`; returns the new heap
and the adapter. -/
def phpRefNew (H : Heap) (w_py_val : PyVal) : Heap × PyVal :=
  (H ++ [to_php w_py_val], .refAdapter H.length)

/-- `W_PHPRefAdapter.deref`: dereference the cell and convert to Python. -/
def phpRefDeref (H : Heap) (r : Nat) : PyVal := to_py (Heap.get H r)

/-- A hippy `Throw`: the PHP exception object it carries. -/
structure Throw where
  w_exc : PHPVal

/-- Python-side failures a bridge call can produce: a `BridgeError` raised
by `_raise_py_bridgeerror`, an `OperationError` of the dedicated
`PHPException` type carrying a converted PHP exception, or an uncaught
hippy `Throw` propagating out of a call path that does not catch it. -/
inductive PyError where
  | bridgeError (msg : String)
  | phpException (payload : PyVal)
  | phpThrow (exc : PHPVal)

/-- A PHP function/method as the bridge sees it: its display name, its
per-parameter needs-ref declaration, and its invocation entry point.  The
body threads the heap of reference cells and may raise a `Throw`. -/
structure PHPFunc where
  name : String
  needs_ref : Nat → Bool
  call_args : Heap → List PHPVal → Except Throw (Heap × PHPVal)

/-- Message of the usage error for a plain value supplied at a needs-ref
position (`arg_no` is the 0-based index; the message shows it 1-based). -/
def byRefMsg (arg_no : Nat) (nm : String) : String :=
  "Arg " ++ toString (arg_no + 1) ++ " of PHP func \x27" ++ nm ++
    "\x27 is pass by reference"

/-- Message of the usage error for a ReferenceCell supplied at a by-value
position. -/
def byValMsg (arg_no : Nat) (nm : String) : String :=
  "Arg " ++ toString (arg_no + 1) ++ " of PHP func \x27" ++ nm ++
    "\x27 is pass by value"

/-- Message of the usage error for keyword arguments on a func adapter. -/
def kwargsFuncMsg : String := "Cannot use kwargs when calling PHP functions"

/-- Message of the usage error for keyword arguments on a callable
generic adapter. -/
def kwargsInstMsg : String := "Cannot use kwargs with callable PHP instances"

/-- Message of the error for calling a non-callable wrapped instance. -/
def notCallableMsg : String := "Wrapped PHP instance is not callable"

/-- `isinstance(w_py_arg, W_PHPRefAdapter)`. -/
def isRefAdapter : PyVal → Bool
  | .refAdapter _ => true
  | _ => false

/-- The argument-marshaling loop of `W_PHPFuncAdapter.descr_call`: walk the
positional arguments, and at each index consult the callee's needs-ref
declaration; a needs-ref position must receive a ref adapter (whose
underlying `W_Reference` slot is forwarded directly), a by-value position
must not (its value is converted); the first mismatch raises the
corresponding usage error. -/
def marshal_args (f : PHPFunc) : Nat → List PyVal → Except PyError (List PHPVal)
  | _, [] => .ok []
  | arg_no, w_py_arg :: rest =>
    if f.needs_ref arg_no then
      match w_py_arg with
      | .refAdapter r =>
        match marshal_args f (arg_no + 1) rest with
        | .ok es => .ok (.vref r :: es)
        | .error e => .error e
      | _ => .error (.bridgeError (byRefMsg arg_no f.name))
    else
      if isRefAdapter w_py_arg then
        .error (.bridgeError (byValMsg arg_no f.name))
      else
        match marshal_args f (arg_no + 1) rest with
        | .ok es => .ok (to_php w_py_arg :: es)
        | .error e => .error e

/-- `W_PHPFuncAdapter.descr_call`: reject keyword arguments, marshal the
positional arguments, invoke the PHP callable, translate a `Throw` into
the dedicated `PHPException`, and convert a successful result to Python. -/
def descr_call (f : PHPFunc) (H : Heap) (args : List PyVal)
    (kwargs : List (String × PyVal)) : Except PyError (Heap × PyVal) :=
  if kwargs.isEmpty then
    match marshal_args f 0 args with
    | .error e => .error e
    | .ok w_php_args_elems =>
      match f.call_args H w_php_args_elems with
      | .error t => .error (.phpException (to_py t.w_exc))
      | .ok (H2, res) => .ok (H2, to_py res)
  else
    .error (.bridgeError kwargsFuncMsg)

/-- The external collaborators `W_PHPGenericAdapter` forwards to.  Modelled
from the spec where the PHP engine is outside the reviewed source: the
foreign object model provider exposes a visibility-aware property lookup
(`getattr` with `fail_with_none`, so invisible and missing both yield
`none`), a method lookup that raises `VisibilityError` for invisible or
missing methods, an `__invoke`-style callable lookup on instances,
class instantiation (`ClassBase.call_args`), and PHP equality `eq_w`. -/
structure PHPObjectModel where
  getattr : PHPVal → String → Option PHPVal
  getmeth : PHPVal → String → Except Unit PHPVal
  get_callable : PHPVal → Option PHPFunc
  class_call : Heap → Nat → List PHPVal → Except Throw (Heap × PHPVal)
  eq_w : PHPVal → PHPVal → Bool

/-- Message of the error for reading a missing attribute. -/
def noAttrMsg (name : String) : String :=
  "Wrapped PHP instance has no attribute \x27" ++ name ++ "\x27"

/-- `W_PHPGenericAdapter.descr_get`: look up a PHP property first; if
absent, look up a PHP method, treating a `VisibilityError` as absence;
if neither exists, raise the no-attribute bridge error; otherwise convert
the found target to Python. -/
def descr_get (M : PHPObjectModel) (w_php_inst : PHPVal) (name : String) :
    Except PyError PyVal :=
  match M.getattr w_php_inst name with
  | some w_php_target => .ok (to_py w_php_target)
  | none =>
    match M.getmeth w_php_inst name with
    | .ok w_php_target => .ok (to_py w_php_target)
    | .error _ => .error (.bridgeError (noAttrMsg name))

/-- `W_PHPGenericAdapter.descr_eq`: true when the other operand is also a
generic adapter and the wrapped PHP values are `eq_w`-equal, false for
every other operand. -/
def descr_eq (M : PHPObjectModel) (w_php_inst : PHPVal) (w_other : PyVal) :
    Bool :=
  match w_other with
  | .genericAdapter w => M.eq_w w_php_inst w
  | _ => false

/-- `W_PHPGenericAdapter.descr_ne`: the negation of `descr_eq`. -/
def descr_ne (M : PHPObjectModel) (w_php_inst : PHPVal) (w_other : PyVal) :
    Bool :=
  !(descr_eq M w_php_inst w_other)

/-- `W_PHPGenericAdapter.descr_call`: reject keyword arguments; if the
wrapped value is a PHP class, convert every positional argument with
`to_php` and instantiate; otherwise look for the instance's callable
(`get_callable`), failing with the not-callable bridge error when there is
none, and call it on the converted arguments.  This path never consults
needs-ref metadata and a `Throw` propagates uncaught. -/
def g_descr_call (M : PHPObjectModel) (w_php_inst : PHPVal) (H : Heap)
    (args : List PyVal) (kwargs : List (String × PyVal)) :
    Except PyError (Heap × PyVal) :=
  if kwargs.isEmpty then
    match w_php_inst with
    | .vcls cid =>
      match M.class_call H cid (args.map to_php) with
      | .error t => .error (.phpThrow t.w_exc)
      | .ok (H2, rv) => .ok (H2, to_py rv)
    | _ =>
      match M.get_callable w_php_inst with
      | none => .error (.bridgeError notCallableMsg)
      | some c =>
        match c.call_args H (args.map to_php) with
        | .error t => .error (.phpThrow t.w_exc)
        | .ok (H2, rv) => .ok (H2, to_py rv)
  else
    .error (.bridgeError kwargsInstMsg)

/-- Pointer identity (`is`) of two PHP values, modelled for the opaque
handle values (objects, classes, functions), where identity is handle
equality; structural PHP values have no modelled pointer identity. -/
def phpSame : PHPVal → PHPVal → Bool
  | .vobj a, .vobj b => a == b
  | .vcls a, .vcls b => a == b
  | .vfunc a, .vfunc b => a == b
  | _, _ => false

/-- `is_w` of the adapters: two generic adapters are the same object when
their wrapped PHP instances are identical, two func adapters when their
wrapped PHP functions are identical; everything else is not the same. -/
def is_w : PyVal → PyVal → Bool
  | .genericAdapter a, .genericAdapter b => phpSame a b
  | .funcAdapter a, .funcAdapter b => a == b
  | _, _ => false

/-- PHP values that denote a foreign object or callable. -/
def phpIsObjOrCallable : PHPVal → Bool
  | .vobj _ => true
  | .vcls _ => true
  | .vfunc _ => true
  | _ => false

/-- A reference/value mismatch at one argument position: a needs-ref
position supplied with anything but a ref adapter, or a by-value position
supplied with a ref adapter. -/
def mismatch (nr : Nat → Bool) (arg_no : Nat) (a : PyVal) : Bool :=
  if nr arg_no then !(isRefAdapter a) else isRefAdapter a

/-- Every argument position from index `k` on conforms to the callee's
needs-ref declaration. -/
def argsConform (nr : Nat → Bool) : Nat → List PyVal → Bool
  | _, [] => true
  | k, a :: rest => !(mismatch nr k a) && argsConform nr (k + 1) rest

/-- The PHP argument list the marshaling loop assembles on a conforming
call: the `W_Reference` slot itself at needs-ref positions, the `to_php`
conversion elsewhere.  (The needs-ref branch's fallback for a non-ref
argument is arbitrary; it is unreachable on conforming input.) -/
def marshalPure (nr : Nat → Bool) : Nat → List PyVal → List PHPVal
  | _, [] => []
  | k, a :: rest =>
    (if nr k then
       match a with
       | .refAdapter r => PHPVal.vref r
       | _ => PHPVal.vnull
     else to_php a) :: marshalPure nr (k + 1) rest

mutual
/-- Plain Python data: scalars and (nested) collections, with no adapter
of any kind inside — the "scalar or collection" values of the spec. -/
def pyPlain : PyVal → Bool
  | .pint _ => true
  | .pstr _ => true
  | .pbool _ => true
  | .pnone => true
  | .plist xs => pyPlainList xs
  | .pdict es => pyPlainEntries es
  | .genericAdapter _ => false
  | .funcAdapter _ => false
  | .refAdapter _ => false

/-- `pyPlain` on every element of a list. -/
def pyPlainList : List PyVal → Bool
  | [] => true
  | x :: xs => pyPlain x && pyPlainList xs

/-- `pyPlain` on every entry value of a mapping. -/
def pyPlainEntries : List (PHPKey × PyVal) → Bool
  | [] => true
  | (_, v) :: es => pyPlain v && pyPlainEntries es
end

mutual
/-- A PHP value that contains no reference cell anywhere: holding it gives
the callee no aliasing channel back to any heap slot. -/
def phpNoRef : PHPVal → Bool
  | .vint _ => true
  | .vstr _ => true
  | .vbool _ => true
  | .vnull => true
  | .varr es => phpNoRefEntries es
  | .vobj _ => true
  | .vcls _ => true
  | .vfunc _ => true
  | .vref _ => false
  | .vpywrap p => pyNoRef p

/-- A Python value that contains no reference cell anywhere. -/
def pyNoRef : PyVal → Bool
  | .pint _ => true
  | .pstr _ => true
  | .pbool _ => true
  | .pnone => true
  | .plist xs => pyNoRefList xs
  | .pdict es => pyNoRefEntries es
  | .genericAdapter w => phpNoRef w
  | .funcAdapter _ => true
  | .refAdapter _ => false

/-- `phpNoRef` on every entry value of a PHP array. -/
def phpNoRefEntries : List (PHPKey × PHPVal) → Bool
  | [] => true
  | (_, v) :: es => phpNoRef v && phpNoRefEntries es

/-- `phpNoRef` on every element of a list of PHP values. -/
def phpNoRefList : List PHPVal → Bool
  | [] => true
  | v :: vs => phpNoRef v && phpNoRefList vs

/-- `pyNoRef` on every element of a list. -/
def pyNoRefList : List PyVal → Bool
  | [] => true
  | x :: xs => pyNoRef x && pyNoRefList xs

/-- `pyNoRef` on every entry value of a mapping. -/
def pyNoRefEntries : List (PHPKey × PyVal) → Bool
  | [] => true
  | (_, v) :: es => pyNoRef v && pyNoRefEntries es
end

mutual
/-- Observation of a Python value through a given heap: every reference
cell inside is dereferenced; everything else is left as it is.  The
meaning a caller can extract from a value it holds is exactly this
observation, so "the callee's mutation left `v` unchanged" is "observing
`v` after the call gives the same result as before". -/
def pyDeref (H : Heap) : PyVal → PyVal
  | .refAdapter r => phpRefDeref H r
  | .plist xs => .plist (pyDerefList H xs)
  | .pdict es => .pdict (pyDerefEntries H es)
  | x => x

/-- `pyDeref` on every element of a list. -/
def pyDerefList (H : Heap) : List PyVal → List PyVal
  | [] => []
  | x :: xs => pyDeref H x :: pyDerefList H xs

/-- `pyDeref` on every entry value of a mapping. -/
def pyDerefEntries (H : Heap) : List (PHPKey × PyVal) → List (PHPKey × PyVal)
  | [] => []
  | (k, v) :: es => (k, pyDeref H v) :: pyDerefEntries H es
end

/-- A callee body that mutates the reference cell it received as its
`i`-th parameter, writing `u` into that slot, and returns null; it throws
if that parameter is not a reference. -/
def mutBody (i : Nat) (u : PHPVal) :
    Heap → List PHPVal → Except Throw (Heap × PHPVal) :=
  fun H elems =>
    match elems.getD i .vnull with
    | .vref s => .ok (Heap.write H s u, .vnull)
    | _ => .error ⟨.vnull⟩

theorem argsConform_append (nr : Nat → Bool) :
    ∀ (xs ys : List PyVal) (k : Nat),
      argsConform nr k (xs ++ ys) =
        (argsConform nr k xs && argsConform nr (k + xs.length) ys)
  | [], ys, k => by simp [argsConform]
  | x :: xs, ys, k => by
    have h := argsConform_append nr xs ys (k + 1)
    rw [show k + 1 + xs.length = k + (xs.length + 1) by omega] at h
    simp only [List.cons_append, argsConform, List.length_cons,
      List.append_eq, h, Bool.and_assoc]

theorem marshalPure_append (nr : Nat → Bool) :
    ∀ (xs ys : List PyVal) (k : Nat),
      marshalPure nr k (xs ++ ys) =
        marshalPure nr k xs ++ marshalPure nr (k + xs.length) ys
  | [], ys, k => by simp [marshalPure]
  | x :: xs, ys, k => by
    have h := marshalPure_append nr xs ys (k + 1)
    rw [show k + 1 + xs.length = k + (xs.length + 1) by omega] at h
    simp only [List.cons_append, marshalPure, List.length_cons,
      List.append_eq, h]

theorem marshalPure_length (nr : Nat → Bool) :
    ∀ (args : List PyVal) (k : Nat), (marshalPure nr k args).length = args.length
  | [], _ => rfl
  | _ :: rest, k => by simp [marshalPure, marshalPure_length nr rest (k + 1)]

/-- On a conforming argument list the marshaling loop succeeds and
assembles exactly `marshalPure`: the `W_Reference` slot at needs-ref
positions, the `to_php` conversion at by-value positions. -/
theorem marshal_args_conform (f : PHPFunc) :
    ∀ (args : List PyVal) (k : Nat), argsConform f.needs_ref k args = true →
      marshal_args f k args = .ok (marshalPure f.needs_ref k args)
  | [], k, _ => rfl
  | a :: rest, k, h => by
    rw [argsConform, Bool.and_eq_true] at h
    have hrec := marshal_args_conform f rest (k + 1) h.2
    have hmm := h.1
    rw [Bool.not_eq_true'] at hmm
    by_cases hn : f.needs_ref k
    · rw [mismatch, if_pos hn, Bool.not_eq_false'] at hmm
      match a, hmm with
      | .refAdapter r, _ => simp [marshal_args, marshalPure, hn, hrec]
    · rw [mismatch, if_neg hn] at hmm
      simp [marshal_args, marshalPure, hn, hmm, hrec]

/-- When every argument before position `k + pre.length` conforms and the
argument there mismatches, the marshaling loop raises exactly the usage
error for that position, without looking at anything after it. -/
theorem marshal_args_mismatch (f : PHPFunc) :
    ∀ (pre : List PyVal) (k : Nat) (a : PyVal) (post : List PyVal),
      argsConform f.needs_ref k pre = true →
      mismatch f.needs_ref (k + pre.length) a = true →
      marshal_args f k (pre ++ a :: post) =
        .error (.bridgeError
          (if f.needs_ref (k + pre.length) then
            byRefMsg (k + pre.length) f.name
          else
            byValMsg (k + pre.length) f.name))
  | [], k, a, post, _, hmm => by
    rw [List.length_nil, Nat.add_zero] at hmm ⊢
    by_cases hn : f.needs_ref k
    · rw [mismatch, if_pos hn, Bool.not_eq_true'] at hmm
      match a, hmm with
      | .pint n, _ => simp [marshal_args, hn]
      | .pstr s, _ => simp [marshal_args, hn]
      | .pbool b, _ => simp [marshal_args, hn]
      | .pnone, _ => simp [marshal_args, hn]
      | .plist xs, _ => simp [marshal_args, hn]
      | .pdict es, _ => simp [marshal_args, hn]
      | .genericAdapter w, _ => simp [marshal_args, hn]
      | .funcAdapter fid, _ => simp [marshal_args, hn]
    · rw [mismatch, if_neg hn] at hmm
      simp [marshal_args, hn, hmm]
  | p :: ps, k, a, post, hpre, hmm => by
    rw [argsConform, Bool.and_eq_true] at hpre
    have hlen : k + (p :: ps).length = (k + 1) + ps.length := by
      simp [List.length_cons]
      omega
    rw [hlen] at hmm ⊢
    have hrec := marshal_args_mismatch f ps (k + 1) a post hpre.2 hmm
    have hok := hpre.1
    rw [Bool.not_eq_true'] at hok
    by_cases hn : f.needs_ref k
    · rw [mismatch, if_pos hn, Bool.not_eq_false'] at hok
      match p, hok with
      | .refAdapter r, _ => simp [marshal_args, hn, hrec]
    · rw [mismatch, if_neg hn] at hok
      simp [marshal_args, hn, hok, hrec]

theorem phpNoRefEntries_enum :
    ∀ (l : List PHPVal) (n : Nat),
      phpNoRefEntries (enumIntKeys n l) = phpNoRefList l
  | [], _ => rfl
  | v :: vs, n => by
    simp [enumIntKeys, phpNoRefEntries, phpNoRefList,
      phpNoRefEntries_enum vs (n + 1)]

mutual
/-- Converting plain Python data to PHP yields a value containing no
reference cell: the far side receives no aliasing channel back. -/
theorem to_php_plain_noRef :
    ∀ v : PyVal, pyPlain v = true → phpNoRef (to_php v) = true
  | .pint _, _ => rfl
  | .pstr _, _ => rfl
  | .pbool _, _ => rfl
  | .pnone, _ => rfl
  | .plist xs, h => by
    have hl := to_php_plain_noRef_list xs (by simpa [pyPlain] using h)
    simp [to_php, phpNoRef, phpNoRefEntries_enum, hl]
  | .pdict es, h => by
    have he := to_php_plain_noRef_entries es (by simpa [pyPlain] using h)
    simp [to_php, phpNoRef, he]

theorem to_php_plain_noRef_list :
    ∀ xs : List PyVal, pyPlainList xs = true →
      phpNoRefList (to_php_list xs) = true
  | [], _ => rfl
  | x :: xs, h => by
    rw [pyPlainList, Bool.and_eq_true] at h
    simp [to_php_list, phpNoRefList, to_php_plain_noRef x h.1,
      to_php_plain_noRef_list xs h.2]

theorem to_php_plain_noRef_entries :
    ∀ es : List (PHPKey × PyVal), pyPlainEntries es = true →
      phpNoRefEntries (to_php_entries es) = true
  | [], _ => rfl
  | (k, v) :: es, h => by
    rw [pyPlainEntries, Bool.and_eq_true] at h
    simp [to_php_entries, phpNoRefEntries, to_php_plain_noRef v h.1,
      to_php_plain_noRef_entries es h.2]
end

mutual
/-- Plain Python data observes the same through every heap: it mentions
no reference cell, so no heap mutation can change what it denotes. -/
theorem pyDeref_plain (H : Heap) :
    ∀ v : PyVal, pyPlain v = true → pyDeref H v = v
  | .pint _, _ => rfl
  | .pstr _, _ => rfl
  | .pbool _, _ => rfl
  | .pnone, _ => rfl
  | .plist xs, h => by
    have hl := pyDerefList_plain H xs (by simpa [pyPlain] using h)
    simp [pyDeref, hl]
  | .pdict es, h => by
    have he := pyDerefEntries_plain H es (by simpa [pyPlain] using h)
    simp [pyDeref, he]
  | .genericAdapter _, _ => rfl
  | .funcAdapter _, _ => rfl
  | .refAdapter _, h => by simp [pyPlain] at h

theorem pyDerefList_plain (H : Heap) :
    ∀ xs : List PyVal, pyPlainList xs = true → pyDerefList H xs = xs
  | [], _ => rfl
  | x :: xs, h => by
    rw [pyPlainList, Bool.and_eq_true] at h
    simp [pyDerefList, pyDeref_plain H x h.1, pyDerefList_plain H xs h.2]

theorem pyDerefEntries_plain (H : Heap) :
    ∀ es : List (PHPKey × PyVal), pyPlainEntries es = true →
      pyDerefEntries H es = es
  | [], _ => rfl
  | (k, v) :: es, h => by
    rw [pyPlainEntries, Bool.and_eq_true] at h
    simp [pyDerefEntries, pyDeref_plain H v h.1, pyDerefEntries_plain H es h.2]
end

theorem list_getD_middle {α : Type} (A : List α) (b : α) (B : List α) (d : α) :
    (A ++ b :: B).getD A.length d = b := by
  induction A with
  | nil => rfl
  | cons a A ih => simpa [List.getD] using ih

theorem list_getD_set_self {α : Type} (l : List α) (r : Nat) (u d : α)
    (hr : r < l.length) : (l.set r u).getD r d = u := by
  induction l generalizing r with
  | nil => simp at hr
  | cons a l ih =>
    cases r with
    | zero => rfl
    | succ n => simpa [List.getD] using ih n (by simpa using hr)

theorem pyPlain_isRefAdapter (v : PyVal) (h : pyPlain v = true) :
    isRefAdapter v = false := by
  cases v <;> simp_all [isRefAdapter, pyPlain]

/-- C1: a call through `W_PHPFuncAdapter` whose argument at position
`pre.length` violates the callee's needs-ref declaration (a plain value at
a needs-ref position, or a ReferenceCell at a by-value position, the
earlier positions conforming) fails with the usage error naming "pass by
reference" resp. "pass by value", the 1-based position and the callee's
name — and it does so for every possible callee body, so the PHP callable
is never invoked. -/
theorem claim_C1_ref_value_mismatch_rejected
    (nm : String) (nr : Nat → Bool) (pre post : List PyVal) (a : PyVal)
    (H : Heap)
    (hpre : argsConform nr 0 pre = true)
    (hmm : mismatch nr pre.length a = true) :
    ∀ body, descr_call ⟨nm, nr, body⟩ H (pre ++ a :: post) [] =
      .error (.bridgeError
        (if nr pre.length then byRefMsg pre.length nm
         else byValMsg pre.length nm)) := by
  intro body
  have h := marshal_args_mismatch ⟨nm, nr, body⟩ pre 0 a post hpre
    (by simpa using hmm)
  simp only [Nat.zero_add] at h
  simp [descr_call, h]

/-- Closed instance of C1: a plain integer supplied at the needs-ref-only
position of a callee named `f` is rejected with the pass-by-reference
usage error, for a callee body that would otherwise succeed. -/
theorem claim_C1_witness :
    argsConform (fun _ => true) 0 [] = true ∧
    mismatch (fun _ => true) 0 (.pint 7) = true ∧
    descr_call ⟨"f", fun _ => true, fun hh _ => .ok (hh, .vnull)⟩
        [] [.pint 7] [] =
      .error (.bridgeError (byRefMsg 0 "f")) := by
  refine ⟨rfl, rfl, ?_⟩
  have h := claim_C1_ref_value_mismatch_rejected "f" (fun _ => true)
    [] [] (.pint 7) [] rfl rfl (fun hh _ => .ok (hh, .vnull))
  simpa using h

/-- C5: converting a PHP object, class or function to Python wraps it in
an adapter whose `to_php` returns the identical wrapped value, so the
round trip `to_py (to_php (to_py x))` is `is_w`-identical to `to_py x`. -/
theorem claim_C5_adapter_round_trip (x : PHPVal)
    (h : phpIsObjOrCallable x = true) :
    to_php (to_py x) = x ∧
    is_w (to_py (to_php (to_py x))) (to_py x) = true := by
  cases x <;> simp_all [phpIsObjOrCallable, to_py, to_php, is_w, phpSame]

/-- Closed instance of C5 at the PHP object with handle 0. -/
theorem claim_C5_witness :
    phpIsObjOrCallable (.vobj 0) = true ∧
    to_php (to_py (.vobj 0)) = .vobj 0 ∧
    is_w (to_py (to_php (to_py (.vobj 0)))) (to_py (.vobj 0)) = true := by
  have h := claim_C5_adapter_round_trip (.vobj 0) rfl
  exact ⟨rfl, h.1, h.2⟩

/-- C7: a call with any keyword argument fails with the corresponding
keyword-usage bridge error — on `W_PHPFuncAdapter.descr_call` for every
callee (so before any marshaling or invocation), and on
`W_PHPGenericAdapter.descr_call` for every object model and wrapped
value. -/
theorem claim_C7_kwargs_rejected (H : Heap) (args : List PyVal)
    (kwargs : List (String × PyVal)) (hk : kwargs ≠ []) :
    (∀ f : PHPFunc,
      descr_call f H args kwargs = .error (.bridgeError kwargsFuncMsg)) ∧
    (∀ (M : PHPObjectModel) (w : PHPVal),
      g_descr_call M w H args kwargs = .error (.bridgeError kwargsInstMsg)) := by
  have hke : kwargs.isEmpty = false := by
    cases kwargs with
    | nil => exact absurd rfl hk
    | cons a l => rfl
  constructor
  · intro f
    simp [descr_call, hke]
  · intro M w
    simp [g_descr_call, hke]

/-- Closed instance of C7: one keyword argument, three positional
arguments, a callee that would succeed — both adapters still reject. -/
theorem claim_C7_witness :
    descr_call ⟨"f", fun _ => false, fun hh _ => .ok (hh, .vnull)⟩
        [] [.pint 1, .pint 2, .pint 3] [("k", .pint 4)] =
      .error (.bridgeError kwargsFuncMsg) := by
  have h := claim_C7_kwargs_rejected [] [.pint 1, .pint 2, .pint 3]
    [("k", .pint 4)] (by simp)
  exact h.1 ⟨"f", fun _ => false, fun hh _ => .ok (hh, .vnull)⟩

/-- C2: on a conforming call, a ReferenceCell supplied at a needs-ref
position forwards its underlying `W_Reference` slot itself (not a
converted copy) to the callee, so a callee that mutates that parameter
writes the very cell the caller holds, and the mutation is visible via
`deref` after the call returns. -/
theorem claim_C2_reference_aliasing
    (nm : String) (nr : Nat → Bool) (pre post : List PyVal) (r : Nat)
    (H : Heap) (u : PHPVal)
    (hpre : argsConform nr 0 pre = true)
    (hpost : argsConform nr (pre.length + 1) post = true)
    (hnr : nr pre.length = true)
    (hr : r < H.length) :
    (∀ body, marshal_args ⟨nm, nr, body⟩ 0 (pre ++ .refAdapter r :: post) =
      .ok (marshalPure nr 0 pre ++
        .vref r :: marshalPure nr (pre.length + 1) post)) ∧
    descr_call ⟨nm, nr, mutBody pre.length u⟩ H
        (pre ++ .refAdapter r :: post) [] =
      .ok (Heap.write H r u, .pnone) ∧
    phpRefDeref (Heap.write H r u) r = to_py u := by
  have hconf : argsConform nr 0 (pre ++ .refAdapter r :: post) = true := by
    rw [argsConform_append, Nat.zero_add, argsConform, mismatch, if_pos hnr]
    simp [isRefAdapter, hpre, hpost]
  have hshape : marshalPure nr 0 (pre ++ .refAdapter r :: post) =
      marshalPure nr 0 pre ++
        .vref r :: marshalPure nr (pre.length + 1) post := by
    rw [marshalPure_append, Nat.zero_add, marshalPure, if_pos hnr]
  have hmarshal : ∀ body : Heap → List PHPVal → Except Throw (Heap × PHPVal),
      marshal_args ⟨nm, nr, body⟩ 0 (pre ++ .refAdapter r :: post) =
        .ok (marshalPure nr 0 pre ++
          .vref r :: marshalPure nr (pre.length + 1) post) := by
    intro body
    rw [marshal_args_conform ⟨nm, nr, body⟩ _ 0 hconf, hshape]
  refine ⟨hmarshal, ?_, ?_⟩
  · have hbody : mutBody pre.length u H
        (marshalPure nr 0 pre ++
          .vref r :: marshalPure nr (pre.length + 1) post) =
        .ok (Heap.write H r u, .vnull) := by
      have hlen := marshalPure_length nr pre 0
      rw [mutBody]
      rw [show (marshalPure nr 0 pre ++
          PHPVal.vref r :: marshalPure nr (pre.length + 1) post).getD
            pre.length PHPVal.vnull = PHPVal.vref r from by
        rw [← hlen]
        exact list_getD_middle _ _ _ _]
    simp [descr_call, hmarshal (mutBody pre.length u), hbody, to_py]
  · rw [phpRefDeref, Heap.write, Heap.get, list_getD_set_self H r u _ hr]

/-- Closed instance of C2: cell 0 holds 1337; the callee writes 666
through its needs-ref parameter; `deref` afterwards yields 666. -/
theorem claim_C2_witness :
    descr_call ⟨"g", fun _ => true, mutBody 0 (.vint 666)⟩
        [.vint 1337] [.refAdapter 0] [] =
      .ok ([.vint 666], .pnone) ∧
    phpRefDeref [.vint 666] 0 = .pint 666 := by
  have h := claim_C2_reference_aliasing "g" (fun _ => true) [] [] 0
    [.vint 1337] (.vint 666) rfl rfl rfl (by simp)
  refine ⟨?_, ?_⟩
  · simpa [Heap.write] using h.2.1
  · simpa [to_py] using h.2.2

/-- C3: on a conforming call, a plain scalar/collection supplied at a
by-value position crosses the boundary as its `to_php` conversion — an
independent copy that contains no reference cell, so the callee gains no
aliasing channel back — and the caller's original value observes the same
through every heap, i.e. no callee mutation can change what it denotes. -/
theorem claim_C3_by_value_isolation
    (nm : String) (nr : Nat → Bool) (pre post : List PyVal) (v : PyVal)
    (hpre : argsConform nr 0 pre = true)
    (hpost : argsConform nr (pre.length + 1) post = true)
    (hnr : nr pre.length = false)
    (hplain : pyPlain v = true) :
    (∀ body, marshal_args ⟨nm, nr, body⟩ 0 (pre ++ v :: post) =
      .ok (marshalPure nr 0 pre ++
        to_php v :: marshalPure nr (pre.length + 1) post)) ∧
    phpNoRef (to_php v) = true ∧
    (∀ H2 : Heap, pyDeref H2 v = v) := by
  have hra := pyPlain_isRefAdapter v hplain
  have hconf : argsConform nr 0 (pre ++ v :: post) = true := by
    rw [argsConform_append, Nat.zero_add, argsConform, mismatch, if_neg
      (by simp [hnr])]
    simp [hra, hpre, hpost]
  have hshape : marshalPure nr 0 (pre ++ v :: post) =
      marshalPure nr 0 pre ++
        to_php v :: marshalPure nr (pre.length + 1) post := by
    rw [marshalPure_append, Nat.zero_add, marshalPure, if_neg (by simp [hnr])]
    intro idx he
    subst he
    simp [isRefAdapter] at hra
  refine ⟨?_, to_php_plain_noRef v hplain, fun H2 => pyDeref_plain H2 v hplain⟩
  intro body
  rw [marshal_args_conform ⟨nm, nr, body⟩ _ 0 hconf, hshape]

/-- Closed instance of C3: the PHP array built from the mapping
x ↦ "x" crosses by value as a fresh PHP array with no reference inside,
and the original mapping observes the same through every heap. -/
theorem claim_C3_witness :
    pyPlain (.pdict [(.kstr "x", .pstr "x")]) = true ∧
    (∀ body, marshal_args ⟨"f", fun _ => false, body⟩ 0
        [.pdict [(.kstr "x", .pstr "x")]] =
      .ok [.varr [(.kstr "x", .vstr "x")]]) ∧
    phpNoRef (.varr [(.kstr "x", .vstr "x")]) = true ∧
    (∀ H2 : Heap, pyDeref H2 (.pdict [(.kstr "x", .pstr "x")]) =
      .pdict [(.kstr "x", .pstr "x")]) := by
  have h := claim_C3_by_value_isolation "f" (fun _ => false) [] []
    (.pdict [(.kstr "x", .pstr "x")]) rfl rfl rfl rfl
  refine ⟨rfl, ?_, ?_, h.2.2⟩
  · intro body
    simpa [marshalPure, to_php, to_php_entries] using h.1 body
  · simpa [to_php, to_php_entries] using h.2.1

/-- C4: when the PHP callable raises during a conforming call, the func
adapter re-raises the dedicated `PHPException` host type carrying the
thrown PHP exception converted to Python; and an ordinary return can only
arise from a successful foreign invocation whose result it converts — no
foreign failure is swallowed. -/
theorem claim_C4_foreign_exception_translated
    (nm : String) (nr : Nat → Bool) (args : List PyVal) (H : Heap)
    (hok : argsConform nr 0 args = true) :
    (∀ exc : PHPVal,
      descr_call ⟨nm, nr, fun _ _ => .error ⟨exc⟩⟩ H args [] =
        .error (.phpException (to_py exc))) ∧
    (∀ body H2 res, descr_call ⟨nm, nr, body⟩ H args [] = .ok (H2, res) →
      ∃ rv, body H (marshalPure nr 0 args) = .ok (H2, rv) ∧
        res = to_py rv) := by
  constructor
  · intro exc
    have hm := marshal_args_conform ⟨nm, nr, fun _ _ => .error ⟨exc⟩⟩ args 0 hok
    simp [descr_call, hm]
  · intro body H2 res hcall
    have hm := marshal_args_conform ⟨nm, nr, body⟩ args 0 hok
    rw [descr_call] at hcall
    simp only [List.isEmpty_nil, if_true, hm] at hcall
    cases hb : body H (marshalPure nr 0 args) with
    | error t =>
      rw [hb] at hcall
      simp at hcall
    | ok p =>
      obtain ⟨H3, rv⟩ := p
      rw [hb] at hcall
      simp only [Except.ok.injEq, Prod.mk.injEq] at hcall
      obtain ⟨h1, h2⟩ := hcall
      subst h1
      subst h2
      exact ⟨rv, rfl, rfl⟩

/-- Closed instance of C4: a callee that throws a PHP string exception
"boom" surfaces as the dedicated PHPException carrying the host string
"boom". -/
theorem claim_C4_witness :
    descr_call ⟨"f", fun _ => false, fun _ _ => .error ⟨.vstr "boom"⟩⟩
        [] [.pint 1] [] =
      .error (.phpException (.pstr "boom")) := by
  have h := claim_C4_foreign_exception_translated "f" (fun _ => false)
    [.pint 1] [] rfl
  simpa [to_py] using h.1 (.vstr "boom")

/-- C6: attribute read on the generic adapter returns the PHP property
when one exists (regardless of any method of the same name, since the
method lookup is not even consulted), falls back to the PHP method —
surfacing as a bound callable adapter — when the property is absent, with
a visibility violation on the method treated as absence, and fails with
the no-attribute bridge error when neither is found. -/
theorem claim_C6_attribute_lookup_order (M : PHPObjectModel)
    (w_php_inst : PHPVal) (name : String) :
    (∀ p, M.getattr w_php_inst name = some p →
      descr_get M w_php_inst name = .ok (to_py p)) ∧
    (∀ m, M.getattr w_php_inst name = none →
      M.getmeth w_php_inst name = .ok m →
      descr_get M w_php_inst name = .ok (to_py m)) ∧
    (∀ fid, M.getattr w_php_inst name = none →
      M.getmeth w_php_inst name = .ok (.vfunc fid) →
      descr_get M w_php_inst name = .ok (.funcAdapter fid)) ∧
    (∀ e : Unit, M.getattr w_php_inst name = none →
      M.getmeth w_php_inst name = .error e →
      descr_get M w_php_inst name =
        .error (.bridgeError (noAttrMsg name))) := by
  refine ⟨?_, ?_, ?_, ?_⟩
  · intro p hp
    simp [descr_get, hp]
  · intro m ha hm
    simp [descr_get, ha, hm]
  · intro fid ha hm
    simp [descr_get, ha, hm, to_py]
  · intro e ha hm
    simp [descr_get, ha, hm]

/-- A concrete PHP object model used by the closed witnesses: property
`x` holds 1, methods `x` and `m` exist (method handle 5), instances are
not callable, instantiating any class yields object 9, and equality is
`phpSame`. -/
def demoModel : PHPObjectModel where
  getattr := fun _ n => if n = "x" then some (.vint 1) else none
  getmeth := fun _ n => if n = "x" ∨ n = "m" then .ok (.vfunc 5) else .error ()
  get_callable := fun _ => none
  class_call := fun H _ _ => .ok (H, .vobj 9)
  eq_w := phpSame

/-- Closed instance of C6 on `demoModel`: name `x` (property and method
both exist) returns the property value; name `m` (method only) returns
the bound callable adapter; name `z` (neither) raises the no-attribute
error. -/
theorem claim_C6_witness :
    descr_get demoModel (.vobj 0) "x" = .ok (.pint 1) ∧
    descr_get demoModel (.vobj 0) "m" = .ok (.funcAdapter 5) ∧
    descr_get demoModel (.vobj 0) "z" =
      .error (.bridgeError (noAttrMsg "z")) := by
  refine ⟨?_, ?_, ?_⟩
  · have h := (claim_C6_attribute_lookup_order demoModel (.vobj 0) "x").1
      (.vint 1) (by simp [demoModel])
    simpa [to_py] using h
  · exact (claim_C6_attribute_lookup_order demoModel (.vobj 0) "m").2.2.1
      5 (by simp [demoModel]) (by simp [demoModel])
  · exact (claim_C6_attribute_lookup_order demoModel (.vobj 0) "z").2.2.2
      () (by simp [demoModel]) (by simp [demoModel])

/-- C8: the generic adapter's equality holds exactly when the other
operand is also a generic adapter whose wrapped PHP value is
`eq_w`-equal to this one's; any non-adapter operand compares unequal;
inequality is the exact negation; and since PHP equality holds on the
same object, two adapters wrapping the same PHP object compare equal. -/
theorem claim_C8_adapter_equality (M : PHPObjectModel) (w : PHPVal) :
    (∀ other, descr_eq M w other = true ↔
      ∃ w2, other = .genericAdapter w2 ∧ M.eq_w w w2 = true) ∧
    (∀ other, (∀ w2, other ≠ .genericAdapter w2) →
      descr_eq M w other = false) ∧
    (∀ other, descr_ne M w other = !(descr_eq M w other)) ∧
    (M.eq_w w w = true → descr_eq M w (.genericAdapter w) = true) := by
  refine ⟨?_, ?_, ?_, ?_⟩
  · intro other
    cases other <;> simp [descr_eq]
  · intro other hne
    cases other with
    | genericAdapter w2 => exact absurd rfl (hne w2)
    | pint n => rfl
    | pstr s => rfl
    | pbool b => rfl
    | pnone => rfl
    | plist xs => rfl
    | pdict es => rfl
    | funcAdapter fid => rfl
    | refAdapter idx => rfl
  · intro other
    rfl
  · intro h
    simpa [descr_eq] using h

/-- Closed instance of C8 on `demoModel` (whose `eq_w` is handle
identity): two adapters wrapping PHP object 3 compare equal, the
adapter is unequal to a plain integer, and `descr_ne` negates both. -/
theorem claim_C8_witness :
    descr_eq demoModel (.vobj 3) (.genericAdapter (.vobj 3)) = true ∧
    descr_eq demoModel (.vobj 3) (.pint 3) = false ∧
    descr_ne demoModel (.vobj 3) (.pint 3) = true := by
  have h := claim_C8_adapter_equality demoModel (.vobj 3)
  refine ⟨h.2.2.2 (by simp [demoModel, phpSame]), ?_, ?_⟩
  · exact h.2.1 (.pint 3) (fun w2 => by simp)
  · rw [h.2.2.1 (.pint 3), h.2.1 (.pint 3) (fun w2 => by simp)]
    rfl

/-- C9: calling a generic adapter wrapping a PHP class instantiates it —
the positional arguments are converted elementwise with `to_php`,
forwarded to the class's `call_args`, and a constructed object comes back
wrapped in a generic adapter — while calling an adapter wrapping an
instance with no callable fails with the not-callable bridge error. -/
theorem claim_C9_class_instantiation_and_not_callable
    (M : PHPObjectModel) (H : Heap) (args : List PyVal) :
    (∀ cid H2 rv, M.class_call H cid (args.map to_php) = .ok (H2, rv) →
      g_descr_call M (.vcls cid) H args [] = .ok (H2, to_py rv)) ∧
    (∀ cid H2 k, M.class_call H cid (args.map to_php) = .ok (H2, .vobj k) →
      g_descr_call M (.vcls cid) H args [] =
        .ok (H2, .genericAdapter (.vobj k))) ∧
    (∀ oid, M.get_callable (.vobj oid) = none →
      g_descr_call M (.vobj oid) H args [] =
        .error (.bridgeError notCallableMsg)) := by
  refine ⟨?_, ?_, ?_⟩
  · intro cid H2 rv hcc
    simp [g_descr_call, hcc]
  · intro cid H2 k hcc
    simp [g_descr_call, hcc, to_py]
  · intro oid hgc
    simp [g_descr_call, hgc]

/-- Closed instance of C9 on `demoModel`: instantiating class 4 with one
converted argument yields object 9 wrapped in an adapter, and calling the
non-callable instance 0 fails with the not-callable error. -/
theorem claim_C9_witness :
    g_descr_call demoModel (.vcls 4) [] [.pint 1] [] =
      .ok ([], .genericAdapter (.vobj 9)) ∧
    g_descr_call demoModel (.vobj 0) [] [.pint 1] [] =
      .error (.bridgeError notCallableMsg) := by
  have h := claim_C9_class_instantiation_and_not_callable demoModel []
    [.pint 1]
  exact ⟨h.2.1 4 [] 9 (by simp [demoModel]), h.2.2 0 (by simp [demoModel])⟩

/-- C10: the generic adapter's call path — class instantiation and
instance invocation alike — is fully determined by `call_args` applied to
the elementwise `to_php` conversion of the positional arguments, so the
callee's needs-ref metadata is never consulted and no reference/value
mismatch check exists; in particular a ReferenceCell argument converts to
a PHP-side wrapper of the cell object, never to the cell's `W_Reference`
slot. -/
theorem claim_C10_object_call_always_by_value
    (M : PHPObjectModel) (H : Heap) (args : List PyVal) :
    (∀ cid, g_descr_call M (.vcls cid) H args [] =
      (match M.class_call H cid (args.map to_php) with
       | .error t => .error (.phpThrow t.w_exc)
       | .ok (H2, rv) => .ok (H2, to_py rv))) ∧
    (∀ oid c, M.get_callable (.vobj oid) = some c →
      g_descr_call M (.vobj oid) H args [] =
        (match c.call_args H (args.map to_php) with
         | .error t => .error (.phpThrow t.w_exc)
         | .ok (H2, rv) => .ok (H2, to_py rv))) ∧
    (∀ r s, to_php (.refAdapter r) ≠ .vref s) ∧
    (∀ (i r : Nat), args[i]? = some (PyVal.refAdapter r) →
      (args.map to_php)[i]? = some (PHPVal.vpywrap (.refAdapter r))) := by
  refine ⟨?_, ?_, ?_, ?_⟩
  · intro cid
    rfl
  · intro oid c hgc
    simp [g_descr_call, hgc]
  · intro r s
    simp [to_php]
  · intro i r hi
    rw [List.getElem?_map, hi]
    rfl

/-- Closed instance of C10: a model whose instance 0 is callable with a
recording body shows a ReferenceCell argument reaching the callee as a
PHP-side wrapper (never a usage error, never the reference slot). -/
theorem claim_C10_witness :
    to_php (.refAdapter 0) ≠ .vref 0 ∧
    ([PyVal.refAdapter 0].map to_php)[0]? =
      some (.vpywrap (.refAdapter 0)) ∧
    g_descr_call demoModel (.vcls 4) [] [.refAdapter 0] [] =
      .ok ([], .genericAdapter (.vobj 9)) := by
  have h := claim_C10_object_call_always_by_value demoModel []
    [.refAdapter 0]
  refine ⟨h.2.2.1 0 0, h.2.2.2 0 0 rfl, ?_⟩
  rw [h.1 4]
  rfl

end PyPyBridge
